import Mathlib

/-!
Verification development for the b3rb position controller
(`src/app/b3rb/src/position.c` of the cerebri repository).

The controller's data and control flow are shallowly embedded below.
Machine doubles are modelled as exact rationals (`ℚ`), the `uint64`
nanosecond clocks as `ℕ`.  The external casadi-generated numeric kernels
`bezier6_rover` and `se2_error`, and `atan2` from libm, are not part of
this repository's sources; following the specification they are treated
as pure functions and passed as explicit function parameters, and every
invocation of the curve sampler is recorded in a trace so that claims
about "no curve evaluation" and about argument domains can be stated.
-/

namespace Cerebri.B3rbPosition

/-- Modelled from the spec: `synapse_msgs_Vector3` (three scalar fields). -/
structure Vector3 where
  x : ℚ
  y : ℚ
  z : ℚ
deriving DecidableEq

/-- Modelled from the spec: `synapse_msgs_Twist`, the velocity command message
with linear and angular vectors and their presence flags (see the `cmd_vel`
initializer at position.c:55-60). -/
structure Twist where
  has_linear : Bool
  has_angular : Bool
  linear : Vector3
  angular : Vector3
deriving DecidableEq

/-- Modelled from the spec: `synapse_msgs_Time`, the clock-offset message
(seconds + nanoseconds). -/
structure Time where
  sec : ℕ
  nanosec : ℕ
deriving DecidableEq

/-- Modelled from the spec: the fields of `synapse_msgs_Odometry` actually read
by the controller (position.c:178-180): planar position and the z/w quaternion
components. -/
structure Odometry where
  position_x : ℚ
  position_y : ℚ
  orientation_z : ℚ
  orientation_w : ℚ
deriving DecidableEq

/-- Modelled from the spec: the vehicle-mode enumeration of
`synapse_msgs_Status`; the controller only compares against the
autonomous (Bezier) value (position.c:238). -/
inductive Mode
  | MODE_UNKNOWN
  | MODE_MANUAL
  | MODE_CMD_VEL
  | MODE_BEZIER
  | MODE_CALIBRATION
deriving DecidableEq

/-- Modelled from the spec: the part of `synapse_msgs_Status` used here. -/
structure Status where
  mode : Mode
deriving DecidableEq

/-- Modelled from the spec: one `BezierCurve` entry: an absolute end time
`time_stop` (nanoseconds) and 6+6 control-point coordinates. -/
structure Curve where
  time_stop : ℕ
  x : Fin 6 → ℚ
  y : Fin 6 → ℚ
deriving DecidableEq

/-- Modelled from the spec: `synapse_msgs_BezierTrajectory`: absolute start
time and the stored curve sequence (`curves_count` = `curves.length`). -/
structure BezierTrajectory where
  time_start : ℕ
  curves : List Curve
deriving DecidableEq

/-- The all-zero curve: the value a never-written slot of the fixed-size
nanopb `curves` array holds (struct default initialization). -/
def defaultCurve : Curve :=
  { time_stop := 0, x := fun _ => 0, y := fun _ => 0 }

/-- Reading `curves[i]`: inside the stored count this is the stored curve;
beyond it the fixed-size C array yields the default-initialized slot. -/
def getCurve (traj : BezierTrajectory) (i : ℕ) : Curve :=
  traj.curves.getD i defaultCurve

/-- The mutable per-controller state, `struct context` (position.c:31-48).
The atomic `running` flag is a `Bool`; subscriptions/publications and the
thread bookkeeping live in the external transport and are not data. -/
structure Context where
  status : Status
  offboard_bezier_trajectory : BezierTrajectory
  offboard_clock_offset : Time
  estimator_odometry : Odometry
  cmd_vel : Twist
  wheel_base : ℚ
  gain_along_track : ℚ
  gain_cross_track : ℚ
  gain_heading : ℚ
  running : Bool
deriving DecidableEq

/-- `b3rb_position_stop` (position.c:98-102): zero the forward speed and the
yaw rate of the retained command; nothing else is touched. -/
def b3rb_position_stop (tw : Twist) : Twist :=
  { tw with
    linear := { tw.linear with x := 0 },
    angular := { tw.angular with z := 0 } }

/-- The current absolute time in nanoseconds (position.c:112):
`k_uptime_get() * 1e6 + offset.sec * 1e9 + offset.nanosec`. -/
def time_now_nsec (uptime_ms : ℕ) (offset : Time) : ℕ :=
  uptime_ms * 1000000 + offset.sec * 1000000000 + offset.nanosec

/-- The index search of the segment loop (position.c:125-145), run with the
`running` flag held true.  At index `i`: if `time_nsec` is strictly below
`curves[i].time_stop` the loop breaks with `i`; otherwise the index is
incremented and, when it reaches `curves_count`, the loop gives up (`none`).
`fuel` only makes the recursion structural: the entry point passes
`traj.curves.length`, which the proofs below show is never exhausted, so
the `0` branch is unreachable from the entry point. -/
def find_curve_index (traj : BezierTrajectory) (time_nsec : ℕ) (i fuel : ℕ) :
    Option ℕ :=
  if time_nsec < (getCurve traj i).time_stop then
    some i
  else if traj.curves.length ≤ i + 1 then
    none
  else
    match fuel with
    | 0 => none
    | fuel' + 1 => find_curve_index traj time_nsec (i + 1) fuel'

/-- Outcome of the segment-search loop (position.c:124-145).
`found i ts te` is a break at curve `i` with window `[ts, te]`;
`out_of_bounds` is the index overrunning `curves_count` (stop and return);
`not_running ts te` is the `while (atomic_get(&ctx->running))` condition
failing, which falls through with the initial window values. -/
inductive SegSearch
  | found (curve_index time_start_nsec time_stop_nsec : ℕ)
  | out_of_bounds
  | not_running (time_start_nsec time_stop_nsec : ℕ)
deriving DecidableEq

/-- The whole segment-search loop including its `running` condition
(position.c:124-145).  `time_start_nsec` is initialized to the trajectory's
`time_start` and updated to the previous curve's `time_stop` only for a
break at a positive index (position.c:108-109,129-132). -/
def segment_search (running : Bool) (traj : BezierTrajectory) (time_nsec : ℕ) :
    SegSearch :=
  if running then
    match find_curve_index traj time_nsec 0 traj.curves.length with
    | some i =>
        SegSearch.found i
          (if 0 < i then (getCurve traj (i - 1)).time_stop else traj.time_start)
          ((getCurve traj i).time_stop)
    | none => SegSearch.out_of_bounds
  else
    SegSearch.not_running traj.time_start traj.time_start

/-- A recorded invocation of the external curve sampler `bezier6_rover`
with its actual arguments (position.c:158-171). -/
structure SamplerCall where
  t : ℚ
  T : ℚ
  PX : Fin 6 → ℚ
  PY : Fin 6 → ℚ
deriving DecidableEq

/-- A recorded invocation of the external error estimator `se2_error`
with its actual arguments (position.c:173-193). -/
structure Se2Call where
  p : ℚ × ℚ × ℚ
  r : ℚ × ℚ × ℚ
deriving DecidableEq

/-- Result of one tracking evaluation: the new command and the trace of
external numeric-kernel invocations it performed. -/
structure EvalTrace where
  cmd_vel : Twist
  sampler_calls : List SamplerCall
  se2_calls : List Se2Call
deriving DecidableEq

/-- The tail of `bezier_position_mode` after the segment window is fixed
(position.c:147-197): normalize the window to seconds, sample the curve,
compute the body-frame error, and blend with the fixed gains. -/
def eval_curve
    (bezier6_rover : ℚ → ℚ → (Fin 6 → ℚ) → (Fin 6 → ℚ) → ℚ × ℚ × ℚ × ℚ × ℚ)
    (se2_error : ℚ × ℚ × ℚ → ℚ × ℚ × ℚ → ℚ × ℚ × ℚ)
    (atan2 : ℚ → ℚ → ℚ)
    (ctx : Context)
    (time_nsec curve_index time_start_nsec time_stop_nsec : ℕ) : EvalTrace :=
  let T : ℚ := ((time_stop_nsec - time_start_nsec : ℕ) : ℚ) / 1000000000
  let t : ℚ := ((time_nsec - time_start_nsec : ℕ) : ℚ) / 1000000000
  let PX := (getCurve ctx.offboard_bezier_trajectory curve_index).x
  let PY := (getCurve ctx.offboard_bezier_trajectory curve_index).y
  let out := bezier6_rover t T PX PY
  let p : ℚ × ℚ × ℚ :=
    (ctx.estimator_odometry.position_x,
     ctx.estimator_odometry.position_y,
     2 * atan2 ctx.estimator_odometry.orientation_z
           ctx.estimator_odometry.orientation_w)
  let r : ℚ × ℚ × ℚ := (out.1, out.2.1, out.2.2.1)
  let e := se2_error p r
  { cmd_vel :=
      { ctx.cmd_vel with
        linear := { ctx.cmd_vel.linear with
          x := out.2.2.2.1 + ctx.gain_along_track * e.1 },
        angular := { ctx.cmd_vel.angular with
          z := out.2.2.2.2 + ctx.gain_cross_track * e.2.1
                 + ctx.gain_heading * e.2.2 } },
    sampler_calls := [⟨t, T, PX, PY⟩],
    se2_calls := [⟨p, r⟩] }

/-- `bezier_position_mode` (position.c:105-198): the full tracking
evaluation.  Before the trajectory's start time, and when the index search
overruns the stored count, the retained command is zeroed and no numeric
kernel runs; otherwise the selected (or fallen-through) window is
evaluated. -/
def bezier_position_mode
    (bezier6_rover : ℚ → ℚ → (Fin 6 → ℚ) → (Fin 6 → ℚ) → ℚ × ℚ × ℚ × ℚ × ℚ)
    (se2_error : ℚ × ℚ × ℚ → ℚ × ℚ × ℚ → ℚ × ℚ × ℚ)
    (atan2 : ℚ → ℚ → ℚ)
    (uptime_ms : ℕ) (ctx : Context) : EvalTrace :=
  if time_now_nsec uptime_ms ctx.offboard_clock_offset
      < ctx.offboard_bezier_trajectory.time_start then
    { cmd_vel := b3rb_position_stop ctx.cmd_vel,
      sampler_calls := [], se2_calls := [] }
  else
    match segment_search ctx.running ctx.offboard_bezier_trajectory
        (time_now_nsec uptime_ms ctx.offboard_clock_offset) with
    | SegSearch.out_of_bounds =>
        { cmd_vel := b3rb_position_stop ctx.cmd_vel,
          sampler_calls := [], se2_calls := [] }
    | SegSearch.found i ts te =>
        eval_curve bezier6_rover se2_error atan2 ctx
          (time_now_nsec uptime_ms ctx.offboard_clock_offset) i ts te
    | SegSearch.not_running ts te =>
        eval_curve bezier6_rover se2_error atan2 ctx
          (time_now_nsec uptime_ms ctx.offboard_clock_offset) 0 ts te

/-- The loop condition of the worker's per-cycle loop, literally
`while (true)` (position.c:213): it does not consult the context at all,
in particular not the `running` flag. -/
def b3rb_position_loop_condition (_ctx : Context) : Bool :=
  true

/-- Result of the bounded wait for a pose sample (position.c:216-220). -/
inductive PollOutcome
  | timeout
  | ready
deriving DecidableEq

/-- The transport samples available to drain this cycle, one optional
last-value per subscription (position.c:222-236). -/
structure Pending where
  offboard_bezier_trajectory : Option BezierTrajectory
  status : Option Status
  estimator_odometry : Option Odometry
  offboard_clock_offset : Option Time
deriving DecidableEq

/-- The non-blocking drain of the secondary subscriptions
(position.c:222-236): each available sample replaces the retained one. -/
def drain (pending : Pending) (ctx : Context) : Context :=
  let ctx :=
    match pending.offboard_bezier_trajectory with
    | some v => { ctx with offboard_bezier_trajectory := v }
    | none => ctx
  let ctx :=
    match pending.status with
    | some v => { ctx with status := v }
    | none => ctx
  let ctx :=
    match pending.estimator_odometry with
    | some v => { ctx with estimator_odometry := v }
    | none => ctx
  match pending.offboard_clock_offset with
  | some v => { ctx with offboard_clock_offset := v }
  | none => ctx

/-- Outcome of one iteration of the worker loop: the updated state, the
command published this cycle (if any), and the sampler invocations the
cycle performed. -/
structure CycleResult where
  ctx : Context
  published : Option Twist
  sampler_calls : List SamplerCall
deriving DecidableEq

/-- One iteration of the worker loop body (position.c:213-242): on poll
timeout, log and re-wait (nothing drained, nothing evaluated, nothing
published); on a pose event, drain the subscriptions and, only when the
retained mode is the Bezier mode, run the tracking evaluation and publish
the resulting command. -/
def b3rb_position_cycle
    (bezier6_rover : ℚ → ℚ → (Fin 6 → ℚ) → (Fin 6 → ℚ) → ℚ × ℚ × ℚ × ℚ × ℚ)
    (se2_error : ℚ × ℚ × ℚ → ℚ × ℚ × ℚ → ℚ × ℚ × ℚ)
    (atan2 : ℚ → ℚ → ℚ)
    (poll : PollOutcome) (pending : Pending) (uptime_ms : ℕ)
    (ctx : Context) : CycleResult :=
  match poll with
  | PollOutcome.timeout =>
      { ctx := ctx, published := none, sampler_calls := [] }
  | PollOutcome.ready =>
      let ctx := drain pending ctx
      if ctx.status.mode = Mode.MODE_BEZIER then
        let tr := bezier_position_mode bezier6_rover se2_error atan2
          uptime_ms ctx
        { ctx := { ctx with cmd_vel := tr.cmd_vel },
          published := some tr.cmd_vel,
          sampler_calls := tr.sampler_calls }
      else
        { ctx := ctx, published := none, sampler_calls := [] }

/-- Result of one shell-command invocation (position.c:259-284): the run
flag afterwards, the lines printed to the shell, the return code, and
whether a worker thread was spawned. -/
structure CmdResult where
  running : Bool
  messages : List String
  ret : Int
  spawned : Bool
deriving DecidableEq

/-- `b3rb_position_cmd_handler` (position.c:259-284).  `argv` holds the
subcommand name; any argument count other than one is an error.  `start`
spawns the worker only when the flag is clear; `stop` clears the flag only
when it is set; `status` prints the flag. -/
def b3rb_position_cmd_handler (argv : List String) (running : Bool) :
    CmdResult :=
  match argv with
  | [cmd] =>
      if cmd = "start" then
        if running then
          { running := running, messages := ["already running"],
            ret := 0, spawned := false }
        else
          { running := running, messages := [], ret := 0, spawned := true }
      else if cmd = "stop" then
        if running then
          { running := false, messages := [], ret := 0, spawned := false }
        else
          { running := running, messages := ["not running"],
            ret := 0, spawned := false }
      else if cmd = "status" then
        { running := running,
          messages := ["running: " ++ (if running then "1" else "0")],
          ret := 0, spawned := false }
      else
        { running := running, messages := [], ret := 0, spawned := false }
  | _ =>
      { running := running, messages := [], ret := -1, spawned := false }

/-- The spec's trajectory invariant: stored segments are in non-decreasing
`end_time` order. -/
abbrev curves_sorted (traj : BezierTrajectory) : Prop :=
  ∀ k < traj.curves.length - 1,
    (getCurve traj k).time_stop ≤ (getCurve traj (k + 1)).time_stop

/-! Concrete instances used by witnesses and counterexamples. -/

/-- A trivial stand-in for the external curve sampler. -/
def roverZero : ℚ → ℚ → (Fin 6 → ℚ) → (Fin 6 → ℚ) → ℚ × ℚ × ℚ × ℚ × ℚ :=
  fun _ _ _ _ => (0, 0, 0, 0, 0)

/-- A trivial stand-in for the external error estimator. -/
def se2Zero : ℚ × ℚ × ℚ → ℚ × ℚ × ℚ → ℚ × ℚ × ℚ :=
  fun _ _ => (0, 0, 0)

/-- A trivial stand-in for libm `atan2`. -/
def atanZero : ℚ → ℚ → ℚ :=
  fun _ _ => 0

/-- The command value `g_ctx.cmd_vel` starts from (position.c:55-60). -/
def twist0 : Twist :=
  { has_linear := true, has_angular := true,
    linear := ⟨0, 0, 0⟩, angular := ⟨0, 0, 0⟩ }

/-- A single straight segment ending at 10 s (absolute nanoseconds). -/
def curve10 : Curve :=
  { time_stop := 10000000000, x := fun _ => 0, y := fun _ => 0 }

/-- A one-segment trajectory starting at absolute time 0. -/
def traj1 : BezierTrajectory :=
  { time_start := 0, curves := [curve10] }

/-- A two-segment trajectory used by the segment-locator witness. -/
def traj2 : BezierTrajectory :=
  { time_start := 2,
    curves := [{ time_stop := 10, x := fun _ => 0, y := fun _ => 0 },
               { time_stop := 20, x := fun _ => 1, y := fun _ => 1 }] }

/-- No pending transport samples. -/
def pendingNone : Pending :=
  { offboard_bezier_trajectory := none, status := none,
    estimator_odometry := none, offboard_clock_offset := none }

/-- A running controller whose retained mode is manual (not Bezier). -/
def ctxManual : Context :=
  { status := ⟨Mode.MODE_MANUAL⟩,
    offboard_bezier_trajectory := traj1,
    offboard_clock_offset := ⟨0, 0⟩,
    estimator_odometry := ⟨3, 4, 0, 1⟩,
    cmd_vel := twist0,
    wheel_base := 1, gain_along_track := 1, gain_cross_track := 1,
    gain_heading := 1, running := true }

/-- The controller after an administrative stop cleared the flag, with the
retained mode still the Bezier mode. -/
def ctxStopped : Context :=
  { ctxManual with status := ⟨Mode.MODE_BEZIER⟩, running := false }

/-- A running controller in Bezier mode. -/
def ctxBezier : Context :=
  { ctxManual with status := ⟨Mode.MODE_BEZIER⟩ }

/-- A running Bezier-mode controller whose trajectory starts only at 1 s. -/
def ctxEarly : Context :=
  { ctxBezier with
    offboard_bezier_trajectory := { time_start := 1000000000, curves := [curve10] } }

/-! Helper lemmas about the index search. -/

/-- Out-of-count reads of the curve array yield the default slot. -/
theorem getCurve_of_count_le (traj : BezierTrajectory) (i : ℕ)
    (h : traj.curves.length ≤ i) : getCurve traj i = defaultCurve :=
  List.getD_eq_default _ _ h

/-- Soundness of the index search: a found index is at or after the start
index, its curve's end time is strictly in the future, and every curve
visited on the way there had already ended. -/
theorem find_curve_index_sound (traj : BezierTrajectory) (time_nsec : ℕ) :
    ∀ fuel i j, find_curve_index traj time_nsec i fuel = some j →
      i ≤ j ∧ time_nsec < (getCurve traj j).time_stop ∧
        ∀ k, i ≤ k → k < j → (getCurve traj k).time_stop ≤ time_nsec := by
  intro fuel
  induction fuel with
  | zero =>
    intro i j h
    unfold find_curve_index at h
    by_cases h1 : time_nsec < (getCurve traj i).time_stop
    · rw [if_pos h1] at h
      cases h
      exact ⟨le_rfl, h1, fun k hk1 hk2 => absurd (lt_of_le_of_lt hk1 hk2) (lt_irrefl _)⟩
    · rw [if_neg h1] at h
      by_cases h2 : traj.curves.length ≤ i + 1
      · rw [if_pos h2] at h; cases h
      · rw [if_neg h2] at h; cases h
  | succ fuel' ih =>
    intro i j h
    unfold find_curve_index at h
    by_cases h1 : time_nsec < (getCurve traj i).time_stop
    · rw [if_pos h1] at h
      cases h
      exact ⟨le_rfl, h1, fun k hk1 hk2 => absurd (lt_of_le_of_lt hk1 hk2) (lt_irrefl _)⟩
    · rw [if_neg h1] at h
      by_cases h2 : traj.curves.length ≤ i + 1
      · rw [if_pos h2] at h; cases h
      · rw [if_neg h2] at h
        obtain ⟨ha, hb, hc⟩ := ih (i + 1) j h
        refine ⟨by omega, hb, fun k hk1 hk2 => ?_⟩
        rcases Nat.eq_or_lt_of_le hk1 with heq | hlt
        · rw [← heq]; exact Nat.not_lt.mp h1
        · exact hc k hlt hk2

/-- Completeness of the index search: with enough fuel it finds the first
index at or after the start whose curve has not yet ended. -/
theorem find_curve_index_complete (traj : BezierTrajectory) (time_nsec : ℕ) :
    ∀ fuel i j, traj.curves.length ≤ i + 1 + fuel → i ≤ j →
      j < traj.curves.length →
      time_nsec < (getCurve traj j).time_stop →
      (∀ k, i ≤ k → k < j → (getCurve traj k).time_stop ≤ time_nsec) →
      find_curve_index traj time_nsec i fuel = some j := by
  intro fuel
  induction fuel with
  | zero =>
    intro i j hfuel hij hjlen hj _
    have hji : j = i := by omega
    subst hji
    unfold find_curve_index
    rw [if_pos hj]
  | succ fuel' ih =>
    intro i j hfuel hij hjlen hj hk
    rcases Nat.eq_or_lt_of_le hij with heq | hlt
    · subst heq
      unfold find_curve_index
      rw [if_pos hj]
    · have hi : (getCurve traj i).time_stop ≤ time_nsec := hk i le_rfl hlt
      unfold find_curve_index
      rw [if_neg (by omega : ¬ time_nsec < (getCurve traj i).time_stop)]
      rw [if_neg (by omega : ¬ traj.curves.length ≤ i + 1)]
      exact ih (i + 1) j (by omega) hlt hjlen hj
        (fun k hk1 hk2 => hk k (by omega) hk2)

/-- When every stored curve has already ended, the index search gives up. -/
theorem find_curve_index_none (traj : BezierTrajectory) (time_nsec : ℕ)
    (hall : ∀ k, k < traj.curves.length →
      (getCurve traj k).time_stop ≤ time_nsec) :
    ∀ fuel i, find_curve_index traj time_nsec i fuel = none := by
  intro fuel
  induction fuel with
  | zero =>
    intro i
    have h1 : ¬ time_nsec < (getCurve traj i).time_stop := by
      by_cases hi : i < traj.curves.length
      · exact Nat.not_lt.mpr (hall i hi)
      · rw [getCurve_of_count_le traj i (Nat.not_lt.mp hi)]
        simp [defaultCurve]
    unfold find_curve_index
    rw [if_neg h1]
    by_cases h2 : traj.curves.length ≤ i + 1
    · rw [if_pos h2]
    · rw [if_neg h2]
  | succ fuel' ih =>
    intro i
    have h1 : ¬ time_nsec < (getCurve traj i).time_stop := by
      by_cases hi : i < traj.curves.length
      · exact Nat.not_lt.mpr (hall i hi)
      · rw [getCurve_of_count_le traj i (Nat.not_lt.mp hi)]
        simp [defaultCurve]
    unfold find_curve_index
    rw [if_neg h1]
    by_cases h2 : traj.curves.length ≤ i + 1
    · rw [if_pos h2]
    · rw [if_neg h2]
      exact ih (i + 1)

/-- Non-decreasing adjacent end times give a monotone end-time sequence. -/
theorem curves_sorted_mono (traj : BezierTrajectory) (hs : curves_sorted traj) :
    ∀ d a, a + d < traj.curves.length →
      (getCurve traj a).time_stop ≤ (getCurve traj (a + d)).time_stop := by
  intro d
  induction d with
  | zero => intro a _; exact le_rfl
  | succ d' ih =>
    intro a h
    have h1 := ih a (by omega)
    have h2 := hs (a + d') (by omega)
    exact le_trans h1 h2

/-- The branch the evaluation takes, hence its sampler-call trace (up to the
recorded arguments, which only depend on the state), is independent of the
supplied numeric kernels. -/
theorem sampler_calls_indep
    (f f' : ℚ → ℚ → (Fin 6 → ℚ) → (Fin 6 → ℚ) → ℚ × ℚ × ℚ × ℚ × ℚ)
    (g g' : ℚ × ℚ × ℚ → ℚ × ℚ × ℚ → ℚ × ℚ × ℚ)
    (a a' : ℚ → ℚ → ℚ) (u : ℕ) (ctx : Context) :
    (bezier_position_mode f g a u ctx).sampler_calls
      = (bezier_position_mode f' g' a' u ctx).sampler_calls := by
  by_cases h1 : time_now_nsec u ctx.offboard_clock_offset
      < ctx.offboard_bezier_trajectory.time_start
  · simp [bezier_position_mode, h1]
  · cases h2 : segment_search ctx.running ctx.offboard_bezier_trajectory
        (time_now_nsec u ctx.offboard_clock_offset) with
    | found i ts te => simp [bezier_position_mode, h1, h2, eval_curve]
    | out_of_bounds => simp [bezier_position_mode, h1, h2]
    | not_running ts te => simp [bezier_position_mode, h1, h2, eval_curve]

/-- When the evaluation reaches the command computation (it sampled the
curve), the published command is the feed-forward term plus the
gain-weighted body-frame errors (position.c:195-197), for constant stand-in
kernels realizing arbitrary sampler and error outputs. -/
theorem eval_law (x y ps V w e0 e1 e2 : ℚ) (at2 : ℚ → ℚ → ℚ) (u : ℕ)
    (ctx : Context)
    (h : (bezier_position_mode (fun _ _ _ _ => (x, y, ps, V, w))
        (fun _ _ => (e0, e1, e2)) at2 u ctx).sampler_calls ≠ []) :
    (bezier_position_mode (fun _ _ _ _ => (x, y, ps, V, w))
        (fun _ _ => (e0, e1, e2)) at2 u ctx).cmd_vel.linear.x
      = V + ctx.gain_along_track * e0 ∧
    (bezier_position_mode (fun _ _ _ _ => (x, y, ps, V, w))
        (fun _ _ => (e0, e1, e2)) at2 u ctx).cmd_vel.angular.z
      = w + ctx.gain_cross_track * e1 + ctx.gain_heading * e2 := by
  by_cases h1 : time_now_nsec u ctx.offboard_clock_offset
      < ctx.offboard_bezier_trajectory.time_start
  · exact absurd (by simp [bezier_position_mode, h1]) h
  · cases h2 : segment_search ctx.running ctx.offboard_bezier_trajectory
        (time_now_nsec u ctx.offboard_clock_offset) with
    | found i ts te =>
        constructor <;> simp [bezier_position_mode, h1, h2, eval_curve]
    | out_of_bounds =>
        exact absurd (by simp [bezier_position_mode, h1, h2]) h
    | not_running ts te =>
        constructor <;> simp [bezier_position_mode, h1, h2, eval_curve]

/-- C10: the stop (zero-command) operation writes only the command's forward
linear speed (`linear.x`) and yaw rate (`angular.z`) to zero; every other
field of the velocity command message (`linear.y`, `linear.z`, `angular.x`,
`angular.y`, `has_linear`, `has_angular`) is left unchanged, for every prior
value of the command. -/
theorem C10_stop_writes_only_speed_and_yaw (tw : Twist) :
    (b3rb_position_stop tw).linear.x = 0 ∧
    (b3rb_position_stop tw).angular.z = 0 ∧
    (b3rb_position_stop tw).linear.y = tw.linear.y ∧
    (b3rb_position_stop tw).linear.z = tw.linear.z ∧
    (b3rb_position_stop tw).angular.x = tw.angular.x ∧
    (b3rb_position_stop tw).angular.y = tw.angular.y ∧
    (b3rb_position_stop tw).has_linear = tw.has_linear ∧
    (b3rb_position_stop tw).has_angular = tw.has_angular :=
  ⟨rfl, rfl, rfl, rfl, rfl, rfl, rfl, rfl⟩

/-- C8: when the wait for a new pose sample times out, the cycle publishes
no command, performs no evaluation (no sampler invocation), leaves the state
untouched, and returns to waiting; in particular the run flag still reports
its previous value afterwards. -/
theorem C8_timeout_publishes_nothing
    (f : ℚ → ℚ → (Fin 6 → ℚ) → (Fin 6 → ℚ) → ℚ × ℚ × ℚ × ℚ × ℚ)
    (g : ℚ × ℚ × ℚ → ℚ × ℚ × ℚ → ℚ × ℚ × ℚ)
    (a : ℚ → ℚ → ℚ) (pending : Pending) (u : ℕ) (ctx : Context) :
    b3rb_position_cycle f g a PollOutcome.timeout pending u ctx
      = { ctx := ctx, published := none, sampler_calls := [] } ∧
    (b3rb_position_cycle f g a PollOutcome.timeout pending u ctx).ctx.running
      = ctx.running :=
  ⟨rfl, rfl⟩

/-- C5: whenever the current absolute time is strictly before the
trajectory's start time, the tracking evaluation zeroes the command and
returns without invoking the curve sampler or the error estimator, and a
repeated evaluation from the resulting state yields the same (zero)
command. -/
theorem C5_before_start_zero_command
    (f : ℚ → ℚ → (Fin 6 → ℚ) → (Fin 6 → ℚ) → ℚ × ℚ × ℚ × ℚ × ℚ)
    (g : ℚ × ℚ × ℚ → ℚ × ℚ × ℚ → ℚ × ℚ × ℚ)
    (a : ℚ → ℚ → ℚ) (u : ℕ) (ctx : Context)
    (h : time_now_nsec u ctx.offboard_clock_offset
      < ctx.offboard_bezier_trajectory.time_start) :
    bezier_position_mode f g a u ctx
      = { cmd_vel := b3rb_position_stop ctx.cmd_vel,
          sampler_calls := [], se2_calls := [] } ∧
    (bezier_position_mode f g a u ctx).cmd_vel.linear.x = 0 ∧
    (bezier_position_mode f g a u ctx).cmd_vel.angular.z = 0 ∧
    bezier_position_mode f g a u
        { ctx with cmd_vel := (bezier_position_mode f g a u ctx).cmd_vel }
      = bezier_position_mode f g a u ctx := by
  have heq : bezier_position_mode f g a u ctx
      = { cmd_vel := b3rb_position_stop ctx.cmd_vel,
          sampler_calls := [], se2_calls := [] } := by
    simp [bezier_position_mode, h]
  refine ⟨heq, by rw [heq]; rfl, by rw [heq]; rfl, ?_⟩
  rw [heq]
  simp [bezier_position_mode, h, b3rb_position_stop]

/-- Witness for C5 at a concrete state: trajectory starting at 1 s,
evaluated at absolute time 0. -/
theorem C5_before_start_zero_command_witness :
    time_now_nsec 0 ctxEarly.offboard_clock_offset
      < ctxEarly.offboard_bezier_trajectory.time_start ∧
    (bezier_position_mode roverZero se2Zero atanZero 0 ctxEarly
      = { cmd_vel := b3rb_position_stop ctxEarly.cmd_vel,
          sampler_calls := [], se2_calls := [] } ∧
    (bezier_position_mode roverZero se2Zero atanZero 0 ctxEarly).cmd_vel.linear.x = 0 ∧
    (bezier_position_mode roverZero se2Zero atanZero 0 ctxEarly).cmd_vel.angular.z = 0 ∧
    bezier_position_mode roverZero se2Zero atanZero 0
        { ctxEarly with
          cmd_vel := (bezier_position_mode roverZero se2Zero atanZero 0 ctxEarly).cmd_vel }
      = bezier_position_mode roverZero se2Zero atanZero 0 ctxEarly) :=
  ⟨by decide,
   C5_before_start_zero_command roverZero se2Zero atanZero 0 ctxEarly (by decide)⟩

/-- C6 (counterexample): in the reachable stopped-but-still-cycling state
(the worker keeps iterating after an administrative stop, see the C2
divergence), with the current time past every stored segment's end time,
the evaluation does not take the stop path: it skips the segment loop,
invokes the curve sampler anyway, and writes a non-zero command — refuting
the frozen claim, whose universal quantification does not exclude this
state.  The last conjunct checks the claim's premise (the time is at or
past every stored end time) at this state. -/
theorem C6_counterexample :
    (bezier_position_mode (fun _ _ _ _ => ((0 : ℚ), (0 : ℚ), (0 : ℚ), (2 : ℚ), (3 : ℚ)))
        (fun _ _ => ((1 : ℚ), (2 : ℚ), (3 : ℚ))) atanZero 20000
        ctxStopped).sampler_calls ≠ [] ∧
    (bezier_position_mode (fun _ _ _ _ => ((0 : ℚ), (0 : ℚ), (0 : ℚ), (2 : ℚ), (3 : ℚ)))
        (fun _ _ => ((1 : ℚ), (2 : ℚ), (3 : ℚ))) atanZero 20000
        ctxStopped).cmd_vel.linear.x ≠ 0 ∧
    (∀ k < ctxStopped.offboard_bezier_trajectory.curves.length,
      (getCurve ctxStopped.offboard_bezier_trajectory k).time_stop
        ≤ time_now_nsec 20000 ctxStopped.offboard_clock_offset) := by
  have h1 : ¬ time_now_nsec 20000 ctxStopped.offboard_clock_offset
      < ctxStopped.offboard_bezier_trajectory.time_start := by decide
  have h2 : segment_search ctxStopped.running
      ctxStopped.offboard_bezier_trajectory
      (time_now_nsec 20000 ctxStopped.offboard_clock_offset)
      = SegSearch.not_running 0 0 := rfl
  have hm : bezier_position_mode
      (fun _ _ _ _ => ((0 : ℚ), (0 : ℚ), (0 : ℚ), (2 : ℚ), (3 : ℚ)))
      (fun _ _ => ((1 : ℚ), (2 : ℚ), (3 : ℚ))) atanZero 20000 ctxStopped
      = eval_curve (fun _ _ _ _ => ((0 : ℚ), (0 : ℚ), (0 : ℚ), (2 : ℚ), (3 : ℚ)))
          (fun _ _ => ((1 : ℚ), (2 : ℚ), (3 : ℚ))) atanZero ctxStopped
          (time_now_nsec 20000 ctxStopped.offboard_clock_offset) 0 0 0 := by
    unfold bezier_position_mode
    rw [if_neg h1, h2]
  refine ⟨?_, ?_, by decide⟩
  · rw [hm]
    simp [eval_curve]
  · rw [hm]
    simp [eval_curve, ctxStopped, ctxManual]
    norm_num

/-- C6 (amended): with the running flag true at the evaluation (when it is
false the segment loop is skipped and the sampler runs instead, as the
counterexample shows), for every trajectory and every current time at or
past the end time of every stored segment — however far past — the
evaluation zeroes the command and invokes no numeric kernel. -/
theorem C6_past_end_zero_command
    (f : ℚ → ℚ → (Fin 6 → ℚ) → (Fin 6 → ℚ) → ℚ × ℚ × ℚ × ℚ × ℚ)
    (g : ℚ × ℚ × ℚ → ℚ × ℚ × ℚ → ℚ × ℚ × ℚ)
    (a : ℚ → ℚ → ℚ) (u : ℕ) (ctx : Context)
    (hrun : ctx.running = true)
    (hall : ∀ k < ctx.offboard_bezier_trajectory.curves.length,
      (getCurve ctx.offboard_bezier_trajectory k).time_stop
        ≤ time_now_nsec u ctx.offboard_clock_offset) :
    bezier_position_mode f g a u ctx
      = { cmd_vel := b3rb_position_stop ctx.cmd_vel,
          sampler_calls := [], se2_calls := [] } ∧
    (bezier_position_mode f g a u ctx).cmd_vel.linear.x = 0 ∧
    (bezier_position_mode f g a u ctx).cmd_vel.angular.z = 0 := by
  have heq : bezier_position_mode f g a u ctx
      = { cmd_vel := b3rb_position_stop ctx.cmd_vel,
          sampler_calls := [], se2_calls := [] } := by
    by_cases h1 : time_now_nsec u ctx.offboard_clock_offset
        < ctx.offboard_bezier_trajectory.time_start
    · simp [bezier_position_mode, h1]
    · have hfind := find_curve_index_none ctx.offboard_bezier_trajectory
        (time_now_nsec u ctx.offboard_clock_offset) (fun k hk => hall k hk)
        ctx.offboard_bezier_trajectory.curves.length 0
      have hss : segment_search ctx.running ctx.offboard_bezier_trajectory
          (time_now_nsec u ctx.offboard_clock_offset)
            = SegSearch.out_of_bounds := by
        rw [hrun]
        simp [segment_search, hfind]
      simp [bezier_position_mode, h1, hss]
  exact ⟨heq, by rw [heq]; rfl, by rw [heq]; rfl⟩

/-- Witness for C6 at a concrete state: one segment ending at 10 s,
evaluated at 20 s. -/
theorem C6_past_end_zero_command_witness :
    ctxBezier.running = true ∧
    (∀ k < ctxBezier.offboard_bezier_trajectory.curves.length,
      (getCurve ctxBezier.offboard_bezier_trajectory k).time_stop
        ≤ time_now_nsec 20000 ctxBezier.offboard_clock_offset) ∧
    (bezier_position_mode roverZero se2Zero atanZero 20000 ctxBezier
      = { cmd_vel := b3rb_position_stop ctxBezier.cmd_vel,
          sampler_calls := [], se2_calls := [] } ∧
    (bezier_position_mode roverZero se2Zero atanZero 20000 ctxBezier).cmd_vel.linear.x = 0 ∧
    (bezier_position_mode roverZero se2Zero atanZero 20000 ctxBezier).cmd_vel.angular.z = 0) :=
  ⟨rfl, by decide,
   C6_past_end_zero_command roverZero se2Zero atanZero 20000 ctxBezier rfl (by decide)⟩

/-- C2: the claim says the worker exits its per-cycle loop once the stop
operation has cleared the run flag.  The code's loop is `while (true)`
(position.c:213): its condition never consults the flag, so no iteration is
the last one — the cycle even still evaluates and publishes in a state with
the flag cleared, and the `b3rb_position_fini` call after the loop is
unreachable.  This theorem documents the divergence. -/
theorem C2_loop_never_observes_flag :
    (∀ c : Context, b3rb_position_loop_condition c = true) ∧
    ((b3rb_position_cycle roverZero se2Zero atanZero PollOutcome.ready
        pendingNone 5 ctxStopped).published).isSome = true :=
  ⟨fun _ => rfl, rfl⟩

/-- C1 (counterexample): a cycle in which a pose sample arrives, with the
retained mode manual (not Bezier), publishes nothing at all — in particular
not the (0, 0) command the claim asserts. -/
theorem C1_counterexample :
    ¬ ∃ tw, (b3rb_position_cycle roverZero se2Zero atanZero PollOutcome.ready
        pendingNone 5 ctxManual).published = some tw ∧
      tw.linear.x = 0 ∧ tw.angular.z = 0 := by
  intro hex
  obtain ⟨tw, h1, -⟩ := hex
  rw [show (b3rb_position_cycle roverZero se2Zero atanZero PollOutcome.ready
      pendingNone 5 ctxManual).published = none from rfl] at h1
  exact Option.noConfusion h1

/-- C1 (amended): for every cycle in which a pose sample arrives before the
timeout and the retained vehicle mode is not the autonomous (Bezier) mode,
the loop publishes no command at all in that cycle (and performs no
evaluation), regardless of the retained pose and trajectory contents. -/
theorem C1_not_bezier_publishes_nothing
    (f : ℚ → ℚ → (Fin 6 → ℚ) → (Fin 6 → ℚ) → ℚ × ℚ × ℚ × ℚ × ℚ)
    (g : ℚ × ℚ × ℚ → ℚ × ℚ × ℚ → ℚ × ℚ × ℚ)
    (a : ℚ → ℚ → ℚ) (pending : Pending) (u : ℕ) (ctx : Context)
    (h : (drain pending ctx).status.mode ≠ Mode.MODE_BEZIER) :
    b3rb_position_cycle f g a PollOutcome.ready pending u ctx
      = { ctx := drain pending ctx, published := none, sampler_calls := [] } := by
  simp [b3rb_position_cycle, h]

/-- Witness for the amended C1 at a concrete state in manual mode. -/
theorem C1_not_bezier_publishes_nothing_witness :
    (drain pendingNone ctxManual).status.mode ≠ Mode.MODE_BEZIER ∧
    b3rb_position_cycle roverZero se2Zero atanZero PollOutcome.ready
        pendingNone 3 ctxManual
      = { ctx := drain pendingNone ctxManual, published := none,
          sampler_calls := [] } :=
  ⟨by decide,
   C1_not_bezier_publishes_nothing roverZero se2Zero atanZero pendingNone 3
     ctxManual (by decide)⟩

/-- C3 (counterexample): in a reachable state with the running flag false
(the worker keeps cycling after an administrative stop, see the C2
divergence) the segment loop is skipped and the curve sampler is invoked
with `T = 0`, outside its stated domain `T > 0`, `0 ≤ t ≤ T`. -/
theorem C3_counterexample :
    ∃ c ∈ (bezier_position_mode roverZero se2Zero atanZero 0
        ctxStopped).sampler_calls, ¬ (0 < c.T ∧ 0 ≤ c.t ∧ c.t ≤ c.T) := by
  have h1 : ¬ time_now_nsec 0 ctxStopped.offboard_clock_offset
      < ctxStopped.offboard_bezier_trajectory.time_start := by decide
  have h2 : segment_search ctxStopped.running
      ctxStopped.offboard_bezier_trajectory
      (time_now_nsec 0 ctxStopped.offboard_clock_offset)
      = SegSearch.not_running 0 0 := rfl
  have hm : bezier_position_mode roverZero se2Zero atanZero 0 ctxStopped
      = eval_curve roverZero se2Zero atanZero ctxStopped
          (time_now_nsec 0 ctxStopped.offboard_clock_offset) 0 0 0 := by
    unfold bezier_position_mode
    rw [if_neg h1, h2]
  refine ⟨⟨0, 0, (getCurve ctxStopped.offboard_bezier_trajectory 0).x,
      (getCurve ctxStopped.offboard_bezier_trajectory 0).y⟩, ?_, ?_⟩
  · have ht : time_now_nsec 0 ctxStopped.offboard_clock_offset = 0 := rfl
    rw [hm]
    simp [eval_curve, ht]
  · intro hcon
    exact absurd hcon.1 (by norm_num)

/-- C3 (amended): whenever the running flag is true at the evaluation, every
invocation of the curve sampler satisfies the sampler's stated domain: the
segment duration `T` is strictly positive and the elapsed time `t` lies in
`0 ≤ t ≤ T`.  (With the flag false the segment loop is skipped and a call
with `T = 0` occurs, as the counterexample shows.) -/
theorem C3_sampler_domain
    (f : ℚ → ℚ → (Fin 6 → ℚ) → (Fin 6 → ℚ) → ℚ × ℚ × ℚ × ℚ × ℚ)
    (g : ℚ × ℚ × ℚ → ℚ × ℚ × ℚ → ℚ × ℚ × ℚ)
    (a : ℚ → ℚ → ℚ) (u : ℕ) (ctx : Context)
    (hrun : ctx.running = true) :
    ∀ c ∈ (bezier_position_mode f g a u ctx).sampler_calls,
      0 < c.T ∧ 0 ≤ c.t ∧ c.t ≤ c.T := by
  intro c hc
  by_cases h1 : time_now_nsec u ctx.offboard_clock_offset
      < ctx.offboard_bezier_trajectory.time_start
  · simp [bezier_position_mode, h1] at hc
  · cases h2 : segment_search ctx.running ctx.offboard_bezier_trajectory
        (time_now_nsec u ctx.offboard_clock_offset) with
    | out_of_bounds => simp [bezier_position_mode, h1, h2] at hc
    | not_running ts te =>
        exfalso
        rw [hrun] at h2
        simp only [segment_search, if_true] at h2
        cases hf : find_curve_index ctx.offboard_bezier_trajectory
            (time_now_nsec u ctx.offboard_clock_offset) 0
            ctx.offboard_bezier_trajectory.curves.length with
        | some i => rw [hf] at h2; simp at h2
        | none => rw [hf] at h2; simp at h2
    | found i ts te =>
        have h2' := h2
        rw [hrun] at h2'
        simp only [segment_search, if_true] at h2'
        rcases hf : find_curve_index ctx.offboard_bezier_trajectory
            (time_now_nsec u ctx.offboard_clock_offset) 0
            ctx.offboard_bezier_trajectory.curves.length with - | i'
        · rw [hf] at h2'; simp at h2'
        · rw [hf] at h2'
          simp only [SegSearch.found.injEq] at h2'
          obtain ⟨hi, hts, hte⟩ := h2'
          rw [hi] at hf hts hte
          obtain ⟨-, hlt, hbelow⟩ := find_curve_index_sound
            ctx.offboard_bezier_trajectory
            (time_now_nsec u ctx.offboard_clock_offset)
            ctx.offboard_bezier_trajectory.curves.length 0 i hf
          have hts_le : ts ≤ time_now_nsec u ctx.offboard_clock_offset := by
            rcases Nat.eq_zero_or_pos i with h0 | hpos
            · subst h0
              rw [← hts]
              simpa using Nat.not_lt.mp h1
            · rw [← hts, if_pos hpos]
              exact hbelow (i - 1) (Nat.zero_le _) (by omega)
          have hte_gt : time_now_nsec u ctx.offboard_clock_offset < te := by
            rw [← hte]; exact hlt
          simp [bezier_position_mode, h1, h2, eval_curve] at hc
          subst hc
          have h9 : (0 : ℚ) < 1000000000 := by norm_num
          refine ⟨?_, ?_, ?_⟩
          · apply div_pos _ h9
            have : ts < te := lt_of_le_of_lt hts_le hte_gt
            exact_mod_cast Nat.sub_pos_of_lt this
          · exact div_nonneg (Nat.cast_nonneg _) (le_of_lt h9)
          · apply div_le_div_of_nonneg_right _ (le_of_lt h9)
            exact_mod_cast Nat.sub_le_sub_right (le_of_lt hte_gt) ts

/-- Witness for the amended C3 at a concrete running state: one segment
from 0 to 10 s evaluated at 5 ms. -/
theorem C3_sampler_domain_witness :
    ctxBezier.running = true ∧
    ∀ c ∈ (bezier_position_mode roverZero se2Zero atanZero 5
        ctxBezier).sampler_calls, 0 < c.T ∧ 0 ≤ c.t ∧ c.t ≤ c.T :=
  ⟨rfl, C3_sampler_domain roverZero se2Zero atanZero 5 ctxBezier rfl⟩

/-- C4: with the run flag set, for every trajectory whose segments are in
non-decreasing end-time order and every current time `t_now` not before the
trajectory's start time such that some stored segment ends after `t_now`,
the segment locator selects the first — and, by the monotone ordering,
unique — stored segment whose end time strictly exceeds `t_now`, with
window start the previous segment's end time (the trajectory's start time
for the first segment) and window end the selected segment's end time. -/
theorem C4_segment_locator (traj : BezierTrajectory) (tn : ℕ)
    (hsorted : curves_sorted traj)
    (hstart : traj.time_start ≤ tn)
    (hex : ∃ i, i < traj.curves.length ∧ tn < (getCurve traj i).time_stop) :
    ∃ j,
      segment_search true traj tn
        = SegSearch.found j
            (if 0 < j then (getCurve traj (j - 1)).time_stop
             else traj.time_start)
            ((getCurve traj j).time_stop) ∧
      j < traj.curves.length ∧
      tn < (getCurve traj j).time_stop ∧
      (∀ k, k < j → (getCurve traj k).time_stop ≤ tn) ∧
      (∀ k, k < traj.curves.length → tn < (getCurve traj k).time_stop →
        (k = 0 ∨ (getCurve traj (k - 1)).time_stop ≤ tn) → k = j) := by
  classical
  obtain ⟨hjlen, hjlt⟩ := Nat.find_spec hex
  have hbelow : ∀ k, k < Nat.find hex → (getCurve traj k).time_stop ≤ tn := by
    intro k hk
    have hmin := Nat.find_min hex hk
    have hklen : k < traj.curves.length := lt_trans hk hjlen
    by_contra hgt
    exact hmin ⟨hklen, by omega⟩
  have hfind : find_curve_index traj tn 0 traj.curves.length
      = some (Nat.find hex) :=
    find_curve_index_complete traj tn traj.curves.length 0 (Nat.find hex)
      (by omega) (Nat.zero_le _) hjlen hjlt (fun k _ hk => hbelow k hk)
  refine ⟨Nat.find hex, ?_, hjlen, hjlt, hbelow, ?_⟩
  · simp [segment_search, hfind]
  · intro k hklen hkgt hkpred
    by_contra hne
    rcases Nat.lt_or_ge k (Nat.find hex) with hlt | hge
    · have := hbelow k hlt
      omega
    · have hjk : Nat.find hex < k := by omega
      rcases hkpred with h0 | hple
      · omega
      · have hmono := curves_sorted_mono traj hsorted
          (k - 1 - Nat.find hex) (Nat.find hex) (by omega)
        have hidx : Nat.find hex + (k - 1 - Nat.find hex) = k - 1 := by omega
        rw [hidx] at hmono
        omega

/-- Witness for C4: two segments ending at 10 ns and 20 ns, start time 2 ns,
queried at 15 ns — the second segment is selected with window [10, 20]. -/
theorem C4_segment_locator_witness :
    (curves_sorted traj2 ∧ traj2.time_start ≤ 15 ∧
      ∃ i, i < traj2.curves.length ∧ 15 < (getCurve traj2 i).time_stop) ∧
    (∃ j,
      segment_search true traj2 15
        = SegSearch.found j
            (if 0 < j then (getCurve traj2 (j - 1)).time_stop
             else traj2.time_start)
            ((getCurve traj2 j).time_stop) ∧
      j < traj2.curves.length ∧
      15 < (getCurve traj2 j).time_stop ∧
      (∀ k, k < j → (getCurve traj2 k).time_stop ≤ 15) ∧
      (∀ k, k < traj2.curves.length → 15 < (getCurve traj2 k).time_stop →
        (k = 0 ∨ (getCurve traj2 (k - 1)).time_stop ≤ 15) → k = j)) :=
  ⟨⟨by decide, by decide, ⟨1, by decide⟩⟩,
   C4_segment_locator traj2 15 (by decide) (by decide) ⟨1, by decide⟩⟩

/-- C7: whenever the evaluation reaches the command computation, the
published command is `forward_speed = V + gain_along · e_along` and
`turn_rate = omega + gain_cross · e_cross + gain_heading · e_heading` for
the sampled reference values and error components, with no clamping; in
particular the forward speed is affine in `e_along` with slope
`gain_along` and the turn rate is affine in `(e_cross, e_heading)` with
slopes `(gain_cross, gain_heading)`. -/
theorem C7_control_law_affine (x y ps V w e0 e1 e2 e0' e1' e2' : ℚ)
    (at2 : ℚ → ℚ → ℚ) (u : ℕ) (ctx : Context)
    (h : (bezier_position_mode (fun _ _ _ _ => (x, y, ps, V, w))
        (fun _ _ => (e0, e1, e2)) at2 u ctx).sampler_calls ≠ []) :
    (bezier_position_mode (fun _ _ _ _ => (x, y, ps, V, w))
        (fun _ _ => (e0, e1, e2)) at2 u ctx).cmd_vel.linear.x
      = V + ctx.gain_along_track * e0 ∧
    (bezier_position_mode (fun _ _ _ _ => (x, y, ps, V, w))
        (fun _ _ => (e0, e1, e2)) at2 u ctx).cmd_vel.angular.z
      = w + ctx.gain_cross_track * e1 + ctx.gain_heading * e2 ∧
    (bezier_position_mode (fun _ _ _ _ => (x, y, ps, V, w))
          (fun _ _ => (e0', e1', e2')) at2 u ctx).cmd_vel.linear.x
        - (bezier_position_mode (fun _ _ _ _ => (x, y, ps, V, w))
          (fun _ _ => (e0, e1, e2)) at2 u ctx).cmd_vel.linear.x
      = ctx.gain_along_track * (e0' - e0) ∧
    (bezier_position_mode (fun _ _ _ _ => (x, y, ps, V, w))
          (fun _ _ => (e0', e1', e2')) at2 u ctx).cmd_vel.angular.z
        - (bezier_position_mode (fun _ _ _ _ => (x, y, ps, V, w))
          (fun _ _ => (e0, e1, e2)) at2 u ctx).cmd_vel.angular.z
      = ctx.gain_cross_track * (e1' - e1) + ctx.gain_heading * (e2' - e2) := by
  have h' : (bezier_position_mode (fun _ _ _ _ => (x, y, ps, V, w))
      (fun _ _ => (e0', e1', e2')) at2 u ctx).sampler_calls ≠ [] := by
    rw [sampler_calls_indep (fun _ _ _ _ => (x, y, ps, V, w))
      (fun _ _ _ _ => (x, y, ps, V, w)) (fun _ _ => (e0', e1', e2'))
      (fun _ _ => (e0, e1, e2)) at2 at2 u ctx]
    exact h
  obtain ⟨ha, hb⟩ := eval_law x y ps V w e0 e1 e2 at2 u ctx h
  obtain ⟨ha', hb'⟩ := eval_law x y ps V w e0' e1' e2' at2 u ctx h'
  refine ⟨ha, hb, ?_, ?_⟩
  · rw [ha, ha']; ring
  · rw [hb, hb']; ring

/-- Witness for C7 at a concrete reachable state (running, in-window),
with sampled values V = 2, omega = 3 and errors (1, 2, 3) and (5, 7, 9). -/
theorem C7_control_law_affine_witness :
    (bezier_position_mode (fun _ _ _ _ => ((0 : ℚ), (0 : ℚ), (0 : ℚ), (2 : ℚ), (3 : ℚ)))
        (fun _ _ => ((1 : ℚ), (2 : ℚ), (3 : ℚ))) atanZero 5 ctxBezier).sampler_calls ≠ [] ∧
    ((bezier_position_mode (fun _ _ _ _ => ((0 : ℚ), (0 : ℚ), (0 : ℚ), (2 : ℚ), (3 : ℚ)))
        (fun _ _ => ((1 : ℚ), (2 : ℚ), (3 : ℚ))) atanZero 5 ctxBezier).cmd_vel.linear.x
      = 2 + ctxBezier.gain_along_track * 1 ∧
    (bezier_position_mode (fun _ _ _ _ => ((0 : ℚ), (0 : ℚ), (0 : ℚ), (2 : ℚ), (3 : ℚ)))
        (fun _ _ => ((1 : ℚ), (2 : ℚ), (3 : ℚ))) atanZero 5 ctxBezier).cmd_vel.angular.z
      = 3 + ctxBezier.gain_cross_track * 2 + ctxBezier.gain_heading * 3 ∧
    (bezier_position_mode (fun _ _ _ _ => ((0 : ℚ), (0 : ℚ), (0 : ℚ), (2 : ℚ), (3 : ℚ)))
          (fun _ _ => ((5 : ℚ), (7 : ℚ), (9 : ℚ))) atanZero 5 ctxBezier).cmd_vel.linear.x
        - (bezier_position_mode (fun _ _ _ _ => ((0 : ℚ), (0 : ℚ), (0 : ℚ), (2 : ℚ), (3 : ℚ)))
          (fun _ _ => ((1 : ℚ), (2 : ℚ), (3 : ℚ))) atanZero 5 ctxBezier).cmd_vel.linear.x
      = ctxBezier.gain_along_track * (5 - 1) ∧
    (bezier_position_mode (fun _ _ _ _ => ((0 : ℚ), (0 : ℚ), (0 : ℚ), (2 : ℚ), (3 : ℚ)))
          (fun _ _ => ((5 : ℚ), (7 : ℚ), (9 : ℚ))) atanZero 5 ctxBezier).cmd_vel.angular.z
        - (bezier_position_mode (fun _ _ _ _ => ((0 : ℚ), (0 : ℚ), (0 : ℚ), (2 : ℚ), (3 : ℚ)))
          (fun _ _ => ((1 : ℚ), (2 : ℚ), (3 : ℚ))) atanZero 5 ctxBezier).cmd_vel.angular.z
      = ctxBezier.gain_cross_track * (7 - 2) + ctxBezier.gain_heading * (9 - 3)) :=
  ⟨by decide,
   C7_control_law_affine 0 0 0 2 3 1 2 3 5 7 9 atanZero 5 ctxBezier (by decide)⟩

/-- C9: the administrative handler reports "already running" for a start
while running, spawning nothing and changing no state; reports
"not running" for a stop while stopped, changing no state; rejects any
invocation with a wrong argument count with an error and no state change;
and reports the current boolean run state for status. -/
theorem C9_cmd_handler (argv : List String) (running : Bool)
    (h : argv.length ≠ 1) :
    b3rb_position_cmd_handler argv running
      = { running := running, messages := [], ret := -1, spawned := false } ∧
    b3rb_position_cmd_handler ["start"] true
      = { running := true, messages := ["already running"], ret := 0,
          spawned := false } ∧
    b3rb_position_cmd_handler ["stop"] false
      = { running := false, messages := ["not running"], ret := 0,
          spawned := false } ∧
    b3rb_position_cmd_handler ["status"] running
      = { running := running,
          messages := ["running: " ++ (if running then "1" else "0")],
          ret := 0, spawned := false } := by
  refine ⟨?_, by decide, by decide, ?_⟩
  · cases argv with
    | nil => rfl
    | cons a tail =>
        cases tail with
        | nil => exact absurd rfl h
        | cons b rest => rfl
  · cases running <;> rfl

/-- Witness for C9 with a malformed two-argument invocation. -/
theorem C9_cmd_handler_witness :
    (["a", "b"] : List String).length ≠ 1 ∧
    (b3rb_position_cmd_handler ["a", "b"] true
      = { running := true, messages := [], ret := -1, spawned := false } ∧
    b3rb_position_cmd_handler ["start"] true
      = { running := true, messages := ["already running"], ret := 0,
          spawned := false } ∧
    b3rb_position_cmd_handler ["stop"] false
      = { running := false, messages := ["not running"], ret := 0,
          spawned := false } ∧
    b3rb_position_cmd_handler ["status"] true
      = { running := true,
          messages := ["running: " ++ (if true then "1" else "0")],
          ret := 0, spawned := false }) :=
  ⟨by decide, C9_cmd_handler ["a", "b"] true (by decide)⟩

end Cerebri.B3rbPosition
